import Mathlib

/-!
Shallow embedding of the `handler` code generator (`generator.go`).

The generator scans a parsed Go package for a requested function name,
checks that the declaration has exactly one parameter group, resolves the
parameter's type expression (bare identifier or `pkg.Sel` selector), and
renders one HTTP-adapter function per (function, encoding) pair from the
fixed text template `handlerWrap`, accumulating everything into one output
buffer.  We model the AST fragments the generator inspects, the per-file
mutable matching state (`File`), the generator state (`Generator`), the
driver loops of `main`, the fallback behaviour of `Generator.format`, and
the runtime semantics of the emitted adapter text.
-/

namespace HandlerGen

/-- Diagnostics printed by the generator (via `log.Printf` / `fmt.Printf`). -/
inductive Diag where
  /-- `log.Printf("%s should take only one parameter, found %d instead", ...)` -/
  | arityMismatch (funcName : String) (count : Nat)
  /-- `log.Printf("Could not guess var full name, type not expected: %v", v)` -/
  | unsupportedShape (funcName : String)
  /-- `fmt.Printf("Func not found: %s", funcName)` -/
  | notFound (funcName : String)
  /-- `log.Printf("warning: ...")` emitted by `Generator.format` on failure -/
  | formatWarning
deriving DecidableEq, Repr

/-- The type expression of a parameter, as the `switch` in `genDecl` sees it:
a bare `*ast.Ident`, a qualified `*ast.SelectorExpr`, or any other shape. -/
inductive TypeExpr where
  | ident (name : String)
  | selector (x : String) (sel : String)
  | other
deriving DecidableEq, Repr

/-- One `*ast.Field`: a parameter group, possibly declaring several names
with a single type (as in `func F(a, b X)`).  `decl.Type.Params.List` has
one entry per group, not per name. -/
structure ParamGroup where
  names : List String
  type : TypeExpr
deriving DecidableEq, Repr

/-- A top-level `*ast.FuncDecl`: its name and its parameter groups. -/
structure FuncDecl where
  name : String
  params : List ParamGroup
deriving DecidableEq, Repr

/-- `File` from `generator.go`: a parsed file plus the walker state.  The
source comment says the last three fields "are reset for each type being
generated", but `generate` only ever re-assigns `funcName`; `paramfullname`
and `found` persist between calls. -/
structure File where
  decls : List FuncDecl
  funcName : String
  paramfullname : String
  found : Bool
deriving DecidableEq, Repr

/-- `genDecl` processes one declaration clause.  On a name match it checks
`len(decl.Type.Params.List) != 1` (parameter groups, not names), then
resolves the single group's type: `*ast.Ident` gives the bare name,
`*ast.SelectorExpr` gives `X.Sel`, anything else is a diagnostic and no
match.  On success it sets `paramfullname` and `found`. -/
def genDecl (f : File) (decl : FuncDecl) : File × List Diag :=
  if decl.name = f.funcName then
    match decl.params with
    | [p] =>
      match p.type with
      | TypeExpr.ident n =>
          ({ f with paramfullname := n, found := true }, [])
      | TypeExpr.selector x sel =>
          ({ f with paramfullname := x ++ "." ++ sel, found := true }, [])
      | TypeExpr.other => (f, [Diag.unsupportedShape f.funcName])
    | ps => (f, [Diag.arityMismatch f.funcName ps.length])
  else (f, [])

/-- `ast.Inspect(file.file, file.genDecl)`: `genDecl` returns `false` for
every `*ast.FuncDecl`, so the walk visits each top-level declaration once,
in order, threading the file state. -/
def inspect (f : File) : File × List Diag :=
  f.decls.foldl
    (fun acc d =>
      let r := genDecl acc.1 d
      (r.1, acc.2 ++ r.2))
    (f, [])

/-- The template data struct `Handler` from `Generator.build`. -/
structure Handler where
  Func : String
  EncodingPkg : String
  T : String
deriving DecidableEq, Repr

/-- `strings.ToUpper`: upper-case every character.  (Modelled on the
character list so that concrete instances evaluate; on the ASCII package
aliases at stake this agrees with the Go function.) -/
def strToUpper (s : String) : String :=
  String.mk (s.data.map Char.toUpper)

/-- The synthesized adapter name: `{{.Func}}Handler{{.EncodingPkg | ToUpper}}`. -/
def handlerName (Func EncodingPkg : String) : String :=
  Func ++ "Handler" ++ strToUpper EncodingPkg

/-- The `handlerWrap` template, instantiated.  Braces of the emitted Go code
are written with escapes. -/
def handlerWrap (Func EncodingPkg T : String) : String :=
  "\nfunc " ++ handlerName Func EncodingPkg ++
  "(w http.ResponseWriter, r *http.Request) \x7b\n\tx := " ++ T ++
  "\x7b\x7d\n\terr := " ++ EncodingPkg ++
  ".NewDecoder(r.Body).Decode(&x)\n\tif err != nil \x7b\n\t\tw.WriteHeader(http.StatusBadRequest)\n\t\treturn\n\t\x7d\n\tresp, s := " ++
  Func ++ "(x)\n\tw.WriteHeader(s)\n\t" ++ EncodingPkg ++
  ".NewEncoder(w).Encode(resp)\n\x7d\n"

/-- Generator state: the output buffer (as the list of strings passed to
`Printf`/`t.Execute`, whose concatenation is the buffer's byte content),
the package files, and traces of the template data records and of the
diagnostics, which the Go code sends to the log / template engine. -/
structure Generator where
  buf : List String
  files : List File
  pkgName : String
  handlers : List Handler
  diags : List Diag
deriving DecidableEq, Repr

/-- `Generator.Printf` appends formatted text to the buffer. -/
def Generator.printf (g : Generator) (s : String) : Generator :=
  { g with buf := g.buf ++ [s] }

/-- One run's byte content of `g.buf`. -/
def Generator.output (g : Generator) : String :=
  String.join g.buf

/-- `Generator.build`: renders `handlerWrap` with
`Handler{Func, EncodingPkg, T}` into the buffer. -/
def Generator.build (g : Generator) (funcName pkgName paramfullname : String) :
    Generator :=
  let h : Handler := { Func := funcName, EncodingPkg := pkgName, T := paramfullname }
  { g with
    buf := g.buf ++ [handlerWrap h.Func h.EncodingPkg h.T],
    handlers := g.handlers ++ [h] }

/-- Accumulator for the file loop inside `Generator.generate`. -/
structure ScanState where
  files : List File
  found : Bool
  paramfullname : String
  diags : List Diag

/-- The body of the file loop inside `Generator.generate`: set
`file.funcName`, run the inspection, and if the file reports `found`,
record `found` and take that file's `paramfullname` (a later file
overwrites an earlier one). -/
def scanStep (funcName : String) (s : ScanState) (file : File) : ScanState :=
  let r := inspect { file with funcName := funcName }
  { files := s.files ++ [r.1],
    found := if r.1.found then true else s.found,
    paramfullname := if r.1.found then r.1.paramfullname else s.paramfullname,
    diags := s.diags ++ r.2 }

/-- `Generator.generate`: run the file loop over every file of the
package; if any file reported found, render the adapter; otherwise print
`Func not found`. -/
def Generator.generate (g : Generator) (funcName encodingPkgName : String) :
    Generator :=
  let s := g.files.foldl (scanStep funcName)
    { files := [], found := false, paramfullname := "", diags := [] }
  let g1 := { g with files := s.files, diags := g.diags ++ s.diags }
  if s.found then
    g1.build funcName encodingPkgName s.paramfullname
  else
    { g1 with diags := g1.diags ++ [Diag.notFound funcName] }

/-- The result of `build.Import` for one requested encoding package:
the import path given on the command line and the package's short name
(`pkg.Name`), the serialization alias.  `main` aborts before emitting
anything if any requested package does not exist, so a run that reaches
emission has every requested path resolved. -/
structure Format where
  path : String
  name : String
deriving DecidableEq, Repr

/-- One header import line: `g.Printf("import \"%s\"\n", encodingPkgName)`. -/
def importLine (path : String) : String :=
  "import \"" ++ path ++ "\"\n"

/-- The four fixed header pieces printed before the import loop. -/
def headerPieces (argsStr pkgName : String) : List String :=
  ["// Code generated by \"handler " ++ argsStr ++ "\"; DO NOT EDIT\n",
   "\n",
   "package " ++ pkgName ++ "\n",
   "\n"]

/-- A file as `parsePackage` constructs it, before any `generate` call has
touched the walker state. -/
def freshFile (ds : List FuncDecl) : File :=
  { decls := ds, funcName := "", paramfullname := "", found := false }

/-- The emission pipeline of `main` after parsing: print the banner and
package clause, print one import line per entry of the `-encoding` list,
then run `generate` for every (function, encoding) pair — outer loop over
function names, inner loop over encodings. -/
def run (argsStr : String) (fileDecls : List (List FuncDecl)) (pkgName : String)
    (funcs : List String) (encodings : List Format) : Generator :=
  let g0 : Generator :=
    { buf := [],
      files := fileDecls.map freshFile,
      pkgName := pkgName,
      handlers := [],
      diags := [] }
  let g1 := (headerPieces argsStr pkgName).foldl Generator.printf g0
  let g2 := encodings.foldl (fun g e => g.printf (importLine e.path)) g1
  funcs.foldl
    (fun g fn => encodings.foldl (fun g e => g.generate fn e.name) g)
    g2

/-- `Generator.format`: hand the buffer to `format.Source`; on failure, log
two warnings and return the buffer's bytes unchanged.  The external
formatter outcome is the `canon` argument (`some` canonical bytes, or
`none` for failure). -/
def Generator.format (g : Generator) (canon : Option String) :
    String × List Diag :=
  match canon with
  | some src => (src, [])
  | none => (g.output, [Diag.formatWarning, Diag.formatWarning])

/-! ### Runtime semantics of the emitted adapter

The adapter body rendered by `handlerWrap` is straight-line Go:

  x := T\x7b\x7d
  err := enc.NewDecoder(r.Body).Decode(&x)
  if err != nil \x7b w.WriteHeader(http.StatusBadRequest); return \x7d
  resp, s := F(x)
  w.WriteHeader(s)
  enc.NewEncoder(w).Encode(resp)

We record the ordered calls the adapter makes on the response writer and
the list of arguments it passes to `F`.  `WriteHeader` takes an `int`, so
for the generated code to compile the *second* value returned by `F` must
be the integer bound to `s`; the first is bound to `resp` and encoded. -/

/-- `net/http`: `StatusBadRequest = 400`. -/
def statusBadRequest : Int := 400

/-- An observable call on the outbound transport. -/
inductive HttpEvent (A : Type) where
  | writeHeader (s : Int)
  | encode (v : A)
deriving DecidableEq, Repr

/-- Semantics of one rendered adapter: given the target function `F` and
the decoder's outcome on the inbound payload, return the ordered transport
events and the list of calls made to `F`. -/
def adapterRun {T A : Type} (F : T → A × Int) (decoded : Except String T) :
    List (HttpEvent A) × List T :=
  match decoded with
  | Except.error _ => ([HttpEvent.writeHeader statusBadRequest], [])
  | Except.ok x =>
      let r := F x
      ([HttpEvent.writeHeader r.2, HttpEvent.encode r.1], [x])

/-! ### Derived matching functions

`matchParam` is the verdict `inspect` reaches on one pristine file;
`lastParam` is the verdict the file loop of `generate` reaches on a fresh
package: the match from the last-enumerated file that has one, since each
file that reports `found` overwrites `paramfullname`. -/

/-- What `inspect` computes for a single fresh file scanned for `fn`. -/
def matchParam (ds : List FuncDecl) (fn : String) : Option String :=
  let r := inspect { freshFile ds with funcName := fn }
  if r.1.found then some r.1.paramfullname else none

/-- The match surviving the file loop of `generate` on a fresh package:
the last-enumerated file's match when one exists. -/
def lastParam (fn : String) : List (List FuncDecl) → Option String
  | [] => none
  | ds :: rest =>
      match lastParam fn rest with
      | some q => some q
      | none => matchParam ds fn

/-- A model of the documented example target: `PutJob` returning the pair
`(status, response) = (7, 13)` on every decoded instance. -/
def putJobModel : Nat → Int × Int := fun _ => (7, 13)

/-- The declaration `func F(a, b X)`: two parameter names sharing a single
type specification, hence one entry in `decl.Type.Params.List`. -/
def sharedGroupDecl : FuncDecl :=
  FuncDecl.mk "F" [ParamGroup.mk ["a", "b"] (TypeExpr.ident "X")]

/-! ### Helper lemmas -/

/-- Folding `Printf` over a list of pieces appends them to the buffer and
changes nothing else. -/
theorem printf_foldl (ss : List String) (g : Generator) :
    ss.foldl Generator.printf g = { g with buf := g.buf ++ ss } := by
  induction ss generalizing g with
  | nil => simp
  | cons s ss ih =>
      simp only [List.foldl_cons, ih, Generator.printf]
      simp

/-- The import loop appends one `importLine` per requested encoding entry. -/
theorem import_foldl (es : List Format) (g : Generator) :
    es.foldl (fun g e => g.printf (importLine e.path)) g =
      { g with buf := g.buf ++ es.map (fun e => importLine e.path) } := by
  induction es generalizing g with
  | nil => simp
  | cons e es ih =>
      rw [List.foldl_cons, ih]
      simp [Generator.printf, List.append_assoc]

/-- `generate` only ever appends to the buffer. -/
theorem generate_buf_append (g : Generator) (fn en : String) :
    ∃ t, (g.generate fn en).buf = g.buf ++ t := by
  simp only [Generator.generate]
  split
  · exact ⟨_, rfl⟩
  · exact ⟨[], by simp⟩

/-- A fold whose every step appends to the buffer appends to the buffer. -/
theorem foldl_buf_append {α : Type} (step : Generator → α → Generator)
    (hstep : ∀ g a, ∃ t, (step g a).buf = g.buf ++ t) (l : List α) (g : Generator) :
    ∃ t, (l.foldl step g).buf = g.buf ++ t := by
  induction l generalizing g with
  | nil => exact ⟨[], by simp⟩
  | cons a l ih =>
      obtain ⟨t₁, h₁⟩ := hstep g a
      obtain ⟨t₂, h₂⟩ := ih (step g a)
      exact ⟨t₁ ++ t₂, by simp [h₂, h₁]⟩

/-- Appending on the left cancels in `String`. -/
theorem string_append_left_cancel {a b c : String} (h : a ++ b = a ++ c) : b = c := by
  have hd := congrArg String.data h
  simp only [String.data_append] at hd
  exact String.ext (List.append_cancel_left hd)

/-- The characters of a left fold of appends. -/
theorem string_foldl_append_data (l : List String) :
    ∀ s : String, (l.foldl (fun r t => r ++ t) s).data =
      s.data ++ (l.map String.data).flatten := by
  induction l with
  | nil => intro s; simp
  | cons a l ih =>
      intro s
      simp [List.foldl_cons, ih, String.data_append, List.append_assoc]

/-- The characters of `String.join` are the joined character lists. -/
theorem string_join_data (l : List String) :
    (String.join l).data = (l.map String.data).flatten := by
  simp [String.join, string_foldl_append_data]

/-- A member of a list of lists is an infix of the join. -/
theorem infix_join_of_mem {α : Type} {l : List α} :
    ∀ {L : List (List α)}, l ∈ L → l <:+: L.flatten := by
  intro L
  induction L with
  | nil => intro h; cases h
  | cons b L ih =>
      intro h
      rcases List.mem_cons.mp h with h | h
      · subst h
        exact ⟨[], L.flatten, by simp⟩
      · obtain ⟨u, v, huv⟩ := ih h
        exact ⟨b ++ u, v, by simp [← huv, List.append_assoc]⟩

/-- The file loop of `generate` on a fresh package: `found` is set exactly
when some file matches, and `paramfullname` is the match from the
last-enumerated file that has one. -/
theorem scan_fresh (fn : String) (fds : List (List FuncDecl)) :
    ∀ s₀ : ScanState,
      ((fds.map freshFile).foldl (scanStep fn) s₀).found =
        (s₀.found || (lastParam fn fds).isSome) ∧
      ((fds.map freshFile).foldl (scanStep fn) s₀).paramfullname =
        (lastParam fn fds).getD s₀.paramfullname := by
  induction fds with
  | nil => intro s₀; simp [lastParam]
  | cons ds rest ih =>
      intro s₀
      rw [List.map_cons, List.foldl_cons]
      obtain ⟨ihf, ihp⟩ := ih (scanStep fn s₀ (freshFile ds))
      rw [ihf, ihp]
      simp only [lastParam, matchParam, scanStep]
      cases hf : (inspect { freshFile ds with funcName := fn }).1.found with
      | false =>
          cases hl : lastParam fn rest with
          | none => simp [hf]
          | some q => simp [hf]
      | true =>
          cases hl : lastParam fn rest with
          | none => simp [hf]
          | some q => simp [hf]

/-- `generate` on a package whose single file declares exactly the target
function with one identifier-typed parameter group: whatever the walker
state left over from earlier calls, the scan rediscovers the match and one
adapter is appended. -/
theorem generate_single_step (F X en fn₀ p₀ : String) (ns : List String) (b₀ : Bool)
    (g : Generator)
    (hg : g.files =
      [File.mk [FuncDecl.mk F [ParamGroup.mk ns (TypeExpr.ident X)]] fn₀ p₀ b₀]) :
    g.generate F en =
      { g with
        files := [File.mk [FuncDecl.mk F [ParamGroup.mk ns (TypeExpr.ident X)]] F X true],
        buf := g.buf ++ [handlerWrap F en X],
        handlers := g.handlers ++ [Handler.mk F en X] } := by
  obtain ⟨gbuf, gfiles, gpkg, ghandlers, gdiags⟩ := g
  simp only at hg
  subst hg
  simp [Generator.generate, scanStep, inspect, genDecl, Generator.build]

/-- Iterating `generate` over the encodings for such a package appends one
adapter record per encoding, each carrying the resolved type `X`. -/
theorem generate_loop_single (F X : String) (ns : List String) (es : List Format) :
    ∀ (g : Generator) (fn₀ p₀ : String) (b₀ : Bool),
      g.files =
        [File.mk [FuncDecl.mk F [ParamGroup.mk ns (TypeExpr.ident X)]] fn₀ p₀ b₀] →
      (es.foldl (fun g e => g.generate F e.name) g).handlers =
        g.handlers ++ es.map (fun e => Handler.mk F e.name X) := by
  induction es with
  | nil => intro g fn₀ p₀ b₀ hg; simp
  | cons e es ih =>
      intro g fn₀ p₀ b₀ hg
      rw [List.foldl_cons, generate_single_step F X e.name fn₀ p₀ ns b₀ g hg]
      rw [ih _ F X true rfl]
      simp

/-! ### Claims -/

/-- C3 (amended): the emitted document's header contains one import line
per entry of the requested serialization package list, in request order;
requesting the same package more than once repeats its import line, so
the lines are one per distinct package only when the requested entries are
pairwise distinct. -/
theorem c3_import_lines (argsStr pkgName : String) (fds : List (List FuncDecl))
    (funcs : List String) (es : List Format) :
    ∃ rest, (run argsStr fds pkgName funcs es).buf =
      headerPieces argsStr pkgName ++ es.map (fun e => importLine e.path) ++ rest := by
  have hstep : ∀ (g : Generator) (fn : String),
      ∃ t, (es.foldl (fun g e => g.generate fn e.name) g).buf = g.buf ++ t := by
    intro g fn
    apply foldl_buf_append
    intro g e
    exact generate_buf_append g fn e.name
  simp only [run, printf_foldl, import_foldl]
  obtain ⟨t, ht⟩ := foldl_buf_append _ hstep funcs
    { buf := headerPieces argsStr pkgName ++ List.map (fun e => importLine e.path) es,
      files := List.map freshFile fds, pkgName := pkgName, handlers := [], diags := [] }
  exact ⟨t, by simp [ht, List.append_assoc]⟩

/-- C3 (counterexample): requesting `encoding/json` twice yields two
`import "encoding/json"` lines in the document, not one. -/
theorem c3_duplicate_import :
    ((run "dup" [[FuncDecl.mk "F" [ParamGroup.mk ["a"] (TypeExpr.ident "X")]]] "pkg"
        ["F"] [Format.mk "encoding/json" "json", Format.mk "encoding/json" "json"]).buf.count
      (importLine "encoding/json")) = 2 ∧
    ((run "dup" [[FuncDecl.mk "F" [ParamGroup.mk ["a"] (TypeExpr.ident "X")]]] "pkg"
        ["F"] [Format.mk "encoding/json" "json", Format.mk "encoding/json" "json"]).buf.count
      (importLine "encoding/json")) ≠ 1 := by
  have h : ((run "dup" [[FuncDecl.mk "F" [ParamGroup.mk ["a"] (TypeExpr.ident "X")]]] "pkg"
      ["F"] [Format.mk "encoding/json" "json", Format.mk "encoding/json" "json"]).buf.count
      (importLine "encoding/json")) = 2 := by decide
  exact ⟨h, by rw [h]; decide⟩

/-- C1: evaluation of the emitted adapter at a failing input.  With the
target returning the pair `(7, 13)` — `(status, response)` under the
documented signature `func F(x X) (status int, resp interface\x7b\x7d)` — the
adapter writes `13` (the second return value) as the status and encodes
`7` (the first), because the template binds `resp, s := F(x)`; the claim
(and the generator's own doc comment, which shows `s, resp := PutJob(x)`)
says the first return value is the written status and the second the
encoded response. -/
theorem c1_status_response_swapped :
    adapterRun putJobModel (Except.ok 0) =
      ([HttpEvent.writeHeader 13, HttpEvent.encode 7], [0]) ∧
    ¬ (adapterRun putJobModel (Except.ok 0)).1 =
        [HttpEvent.writeHeader (putJobModel 0).1, HttpEvent.encode (putJobModel 0).2] := by
  constructor
  · rfl
  · decide

/-- C2: evaluation at a failing input.  With `A` declared (one parameter
of local type `X`) and `B` declared nowhere, requesting `["A", "B"]`
generates an adapter for `B` — reusing `A`'s parameter type through the
stale `found`/`paramfullname` file state — and emits no
`Func not found` diagnostic at all, where the claim demands zero adapters
for `B` and exactly one diagnostic. -/
theorem c2_stale_state_leak :
    (run "x" [[FuncDecl.mk "A" [ParamGroup.mk ["x"] (TypeExpr.ident "X")]]] "pkg"
        ["A", "B"] [Format.mk "encoding/json" "json"]).handlers =
      [Handler.mk "A" "json" "X", Handler.mk "B" "json" "X"] ∧
    (run "x" [[FuncDecl.mk "A" [ParamGroup.mk ["x"] (TypeExpr.ident "X")]]] "pkg"
        ["A", "B"] [Format.mk "encoding/json" "json"]).diags = [] := by
  constructor
  · decide
  · decide

/-- C6: evaluation at a failing input.  Requesting `["A", "Import"]` where
`Import` has four parameter groups does emit the `ArityMismatch`
diagnostic naming `Import` and the count 4, but — because `A` was matched
first and the per-file `found`/`paramfullname` state is never reset — an
adapter for `Import` is generated anyway (with `A`'s parameter type),
where the claim demands that no adapter be generated for `Import`. -/
theorem c6_arity_mismatch_stale_adapter :
    (run "x" [[FuncDecl.mk "A" [ParamGroup.mk ["x"] (TypeExpr.ident "X")],
               FuncDecl.mk "Import"
                 [ParamGroup.mk ["a"] (TypeExpr.ident "A"),
                  ParamGroup.mk ["b"] (TypeExpr.ident "B"),
                  ParamGroup.mk ["c"] (TypeExpr.ident "C"),
                  ParamGroup.mk ["d"] (TypeExpr.selector "z" "D")]]] "pkg"
        ["A", "Import"] [Format.mk "encoding/json" "json"]).diags =
      [Diag.arityMismatch "Import" 4] ∧
    (run "x" [[FuncDecl.mk "A" [ParamGroup.mk ["x"] (TypeExpr.ident "X")],
               FuncDecl.mk "Import"
                 [ParamGroup.mk ["a"] (TypeExpr.ident "A"),
                  ParamGroup.mk ["b"] (TypeExpr.ident "B"),
                  ParamGroup.mk ["c"] (TypeExpr.ident "C"),
                  ParamGroup.mk ["d"] (TypeExpr.selector "z" "D")]]] "pkg"
        ["A", "Import"] [Format.mk "encoding/json" "json"]).handlers =
      [Handler.mk "A" "json" "X", Handler.mk "Import" "json" "X"] := by
  constructor
  · decide
  · decide

/-- C7: when decoding the inbound payload fails, every generated adapter
writes exactly one status — `http.StatusBadRequest`, which is 400 — onto
the outbound transport, encodes nothing, and never invokes the target
function (the empty call list; the result does not depend on `F`). -/
theorem c7_decode_failure_bad_request {T A : Type} (F : T → A × Int) (e : String) :
    adapterRun F (Except.error e) = ([HttpEvent.writeHeader statusBadRequest], []) ∧
    statusBadRequest = 400 :=
  ⟨rfl, rfl⟩

/-- C9: generation is deterministic — two runs with identical invocation
arguments, identical source declarations, identical package name,
identical requested function names and identical resolved encodings
produce byte-identical pre-formatting output documents. -/
theorem c9_deterministic (a₁ a₂ pk₁ pk₂ : String)
    (fd₁ fd₂ : List (List FuncDecl)) (fn₁ fn₂ : List String)
    (es₁ es₂ : List Format)
    (ha : a₁ = a₂) (hfd : fd₁ = fd₂) (hpk : pk₁ = pk₂) (hfn : fn₁ = fn₂)
    (hes : es₁ = es₂) :
    (run a₁ fd₁ pk₁ fn₁ es₁).output = (run a₂ fd₂ pk₂ fn₂ es₂).output := by
  subst ha hfd hpk hfn hes
  rfl

/-- C9 witness: the determinism theorem applied at a concrete input. -/
theorem c9_deterministic_witness :
    ("a" : String) = "a" ∧ ([[sharedGroupDecl]] : List (List FuncDecl)) = [[sharedGroupDecl]] ∧
    ("p" : String) = "p" ∧ (["F"] : List String) = ["F"] ∧
    ([Format.mk "encoding/json" "json"] : List Format) = [Format.mk "encoding/json" "json"] ∧
    (run "a" [[sharedGroupDecl]] "p" ["F"] [Format.mk "encoding/json" "json"]).output =
      (run "a" [[sharedGroupDecl]] "p" ["F"] [Format.mk "encoding/json" "json"]).output :=
  ⟨rfl, rfl, rfl, rfl, rfl,
    c9_deterministic "a" "a" "p" "p" [[sharedGroupDecl]] [[sharedGroupDecl]]
      ["F"] ["F"] [Format.mk "encoding/json" "json"] [Format.mk "encoding/json" "json"]
      rfl rfl rfl rfl rfl⟩

/-- C10: the arity check counts parameter groups, not parameter names.
The declaration `func F(a, b X)` has one entry in its parameter list, so
it passes the check with no `ArityMismatch` diagnostic, is matched with
the bare type `X`, an adapter is generated for it, and the adapter's
semantics invoke `F` exactly once, with the single decoded argument. -/
theorem c10_param_groups_not_names :
    sharedGroupDecl.params.length = 1 ∧
    (sharedGroupDecl.params.map (fun p => p.names.length)).sum = 2 ∧
    inspect { decls := [sharedGroupDecl], funcName := "F", paramfullname := "",
              found := false } =
      ({ decls := [sharedGroupDecl], funcName := "F", paramfullname := "X",
         found := true }, []) ∧
    (run "x" [[sharedGroupDecl]] "pkg" ["F"] [Format.mk "encoding/json" "json"]).handlers =
      [Handler.mk "F" "json" "X"] ∧
    (adapterRun (fun _ : Nat => ((0 : Int), (0 : Int))) (Except.ok 5)).2 = [5] := by
  refine ⟨rfl, rfl, by decide, by decide, rfl⟩

/-- C4 (amended): for a function with exactly one parameter of a local
type, requesting N formats yields exactly N adapters, each named by
concatenating the function name, the fixed suffix `Handler`, and the
format's serialization alias upper-cased; the N names are pairwise
distinct whenever the upper-cased aliases are pairwise distinct. -/
theorem c4_adapters_per_format (argsStr pkgName F X : String) (ns : List String)
    (es : List Format)
    (h : (es.map (fun e => strToUpper e.name)).Nodup) :
    (run argsStr [[FuncDecl.mk F [ParamGroup.mk ns (TypeExpr.ident X)]]] pkgName
        [F] es).handlers = es.map (fun e => Handler.mk F e.name X) ∧
    (run argsStr [[FuncDecl.mk F [ParamGroup.mk ns (TypeExpr.ident X)]]] pkgName
        [F] es).handlers.length = es.length ∧
    ((run argsStr [[FuncDecl.mk F [ParamGroup.mk ns (TypeExpr.ident X)]]] pkgName
        [F] es).handlers.map (fun h => handlerName h.Func h.EncodingPkg)) =
      es.map (fun e => handlerName F e.name) ∧
    ((run argsStr [[FuncDecl.mk F [ParamGroup.mk ns (TypeExpr.ident X)]]] pkgName
        [F] es).handlers.map (fun h => handlerName h.Func h.EncodingPkg)).Nodup := by
  have hrun : (run argsStr [[FuncDecl.mk F [ParamGroup.mk ns (TypeExpr.ident X)]]]
      pkgName [F] es).handlers = es.map (fun e => Handler.mk F e.name X) := by
    simp only [run, printf_foldl, import_foldl, List.foldl_cons, List.foldl_nil]
    rw [generate_loop_single F X ns es _ "" "" false (by simp [freshFile])]
    simp
  have hnames : ((run argsStr [[FuncDecl.mk F [ParamGroup.mk ns (TypeExpr.ident X)]]]
      pkgName [F] es).handlers.map (fun h => handlerName h.Func h.EncodingPkg)) =
      es.map (fun e => handlerName F e.name) := by
    rw [hrun, List.map_map]
    rfl
  refine ⟨hrun, by rw [hrun]; simp, hnames, ?_⟩
  rw [hnames]
  have hrw : es.map (fun e => handlerName F e.name) =
      (es.map (fun e => strToUpper e.name)).map (fun u => F ++ "Handler" ++ u) := by
    rw [List.map_map]
    rfl
  rw [hrw]
  exact h.map (fun u v huv => string_append_left_cancel huv)

/-- C4 (witness): the amended claim applied to `PutJob(j job)` with the
two distinct formats `encoding/json` and `encoding/xml`. -/
theorem c4_adapters_per_format_witness :
    (([Format.mk "encoding/json" "json", Format.mk "encoding/xml" "xml"].map
        (fun e => strToUpper e.name)).Nodup) ∧
    ((run "a" [[FuncDecl.mk "PutJob" [ParamGroup.mk ["j"] (TypeExpr.ident "job")]]] "jober"
        ["PutJob"] [Format.mk "encoding/json" "json", Format.mk "encoding/xml" "xml"]).handlers =
      [Format.mk "encoding/json" "json", Format.mk "encoding/xml" "xml"].map
        (fun e => Handler.mk "PutJob" e.name "job") ∧
    (run "a" [[FuncDecl.mk "PutJob" [ParamGroup.mk ["j"] (TypeExpr.ident "job")]]] "jober"
        ["PutJob"] [Format.mk "encoding/json" "json", Format.mk "encoding/xml" "xml"]).handlers.length =
      [Format.mk "encoding/json" "json", Format.mk "encoding/xml" "xml"].length ∧
    ((run "a" [[FuncDecl.mk "PutJob" [ParamGroup.mk ["j"] (TypeExpr.ident "job")]]] "jober"
        ["PutJob"] [Format.mk "encoding/json" "json", Format.mk "encoding/xml" "xml"]).handlers.map
        (fun h => handlerName h.Func h.EncodingPkg)) =
      [Format.mk "encoding/json" "json", Format.mk "encoding/xml" "xml"].map
        (fun e => handlerName "PutJob" e.name) ∧
    ((run "a" [[FuncDecl.mk "PutJob" [ParamGroup.mk ["j"] (TypeExpr.ident "job")]]] "jober"
        ["PutJob"] [Format.mk "encoding/json" "json", Format.mk "encoding/xml" "xml"]).handlers.map
        (fun h => handlerName h.Func h.EncodingPkg)).Nodup) :=
  ⟨by decide,
    c4_adapters_per_format "a" "jober" "PutJob" "job" ["j"]
      [Format.mk "encoding/json" "json", Format.mk "encoding/xml" "xml"] (by decide)⟩

/-- C4 (counterexample): two distinct requested serialization packages —
`encoding/json` and `github.com/x/json`, both with package name `json` —
are two distinct formats, yet the two generated adapters carry the very
same synthesized name `FHandlerJSON`, so the names are not pairwise
distinct as the claim states. -/
theorem c4_name_collision :
    (Format.mk "encoding/json" "json" ≠ Format.mk "github.com/x/json" "json") ∧
    (run "x" [[FuncDecl.mk "F" [ParamGroup.mk ["a"] (TypeExpr.ident "X")]]] "pkg"
        ["F"] [Format.mk "encoding/json" "json",
               Format.mk "github.com/x/json" "json"]).handlers.length = 2 ∧
    ((run "x" [[FuncDecl.mk "F" [ParamGroup.mk ["a"] (TypeExpr.ident "X")]]] "pkg"
        ["F"] [Format.mk "encoding/json" "json",
               Format.mk "github.com/x/json" "json"]).handlers.map
      (fun h => handlerName h.Func h.EncodingPkg)) = ["FHandlerJSON", "FHandlerJSON"] ∧
    ¬ ((run "x" [[FuncDecl.mk "F" [ParamGroup.mk ["a"] (TypeExpr.ident "X")]]] "pkg"
        ["F"] [Format.mk "encoding/json" "json",
               Format.mk "github.com/x/json" "json"]).handlers.map
      (fun h => handlerName h.Func h.EncodingPkg)).Nodup := by
  refine ⟨by decide, by decide, by decide, by decide⟩

/-- C5: last match across compilation units wins.  On a fresh run, when the
last-enumerated unit containing a match for `fn` resolves the parameter
type to `p` (`lastParam`), the single generated adapter references exactly
`p` — a match in a later unit has overwritten any earlier one. -/
theorem c5_last_match_wins (argsStr pkgName fn p : String)
    (fds : List (List FuncDecl)) (fmt : Format)
    (h : lastParam fn fds = some p) :
    (run argsStr fds pkgName [fn] [fmt]).handlers = [Handler.mk fn fmt.name p] := by
  simp only [run, printf_foldl, import_foldl, List.foldl_cons, List.foldl_nil,
    Generator.printf]
  simp only [Generator.generate]
  obtain ⟨h1, h2⟩ := scan_fresh fn fds
    { files := [], found := false, paramfullname := "", diags := [] }
  rw [h] at h1 h2
  simp only [Option.isSome_some, Bool.or_true, Option.getD_some] at h1 h2
  simp [h1, h2, Generator.build]

/-- C5 (witness): `F` declared with parameter type `X` in the first unit
and with parameter type `Y` in the second; the generated adapter
references `Y`, the match from the last-enumerated unit. -/
theorem c5_last_match_wins_witness :
    lastParam "F" [[FuncDecl.mk "F" [ParamGroup.mk ["x"] (TypeExpr.ident "X")]],
                   [FuncDecl.mk "F" [ParamGroup.mk ["y"] (TypeExpr.ident "Y")]]] =
      some "Y" ∧
    (run "a" [[FuncDecl.mk "F" [ParamGroup.mk ["x"] (TypeExpr.ident "X")]],
              [FuncDecl.mk "F" [ParamGroup.mk ["y"] (TypeExpr.ident "Y")]]] "pkg"
        ["F"] [Format.mk "encoding/json" "json"]).handlers =
      [Handler.mk "F" "json" "Y"] :=
  ⟨by decide,
    c5_last_match_wins "a" "pkg" "F" "Y"
      [[FuncDecl.mk "F" [ParamGroup.mk ["x"] (TypeExpr.ident "X")]],
       [FuncDecl.mk "F" [ParamGroup.mk ["y"] (TypeExpr.ident "Y")]]]
      (Format.mk "encoding/json" "json") (by decide)⟩

/-- C8: when canonical formatting fails, `format` returns the accumulated
buffer byte-identically (so every piece ever appended — in particular
every adapter body — appears verbatim in the returned document), emits
only warnings, and the run is not aborted. -/
theorem c8_format_fallback (g : Generator) (p : String) (hp : p ∈ g.buf) :
    (g.format none).1 = g.output ∧
    p.data <:+: (g.format none).1.data ∧
    (g.format none).2 = [Diag.formatWarning, Diag.formatWarning] := by
  refine ⟨rfl, ?_, rfl⟩
  show p.data <:+: (String.join g.buf).data
  rw [string_join_data]
  exact infix_join_of_mem (List.mem_map_of_mem String.data hp)

/-- C8 (witness): the fallback theorem applied to a generator holding one
concrete adapter piece. -/
theorem c8_format_fallback_witness :
    ("piece" ∈ (Generator.mk ["piece"] [] "p" [] []).buf) ∧
    (((Generator.mk ["piece"] [] "p" [] []).format none).1 =
        (Generator.mk ["piece"] [] "p" [] []).output ∧
      ("piece" : String).data <:+:
        ((Generator.mk ["piece"] [] "p" [] []).format none).1.data ∧
      ((Generator.mk ["piece"] [] "p" [] []).format none).2 =
        [Diag.formatWarning, Diag.formatWarning]) :=
  ⟨by decide,
    c8_format_fallback (Generator.mk ["piece"] [] "p" [] []) "piece" (by decide)⟩

end HandlerGen
